import Mathlib

/-!
# PGStatUserTablesSizeCollector.Update

A shallow embedding of `src/collector/pg_stat_user_tables_size.go`.

The collector runs one static query under a one-second sub-context, turns every
result row into one gauge sample and sends it on the sink channel.  Everything the
Go code consumes from outside (the clock, the answer of `QueryContext`, the cursor's
`Next`/`Scan`/`Err` results) is an explicit input; everything it does to the outside
(cursor calls, channel sends, `cancel`) is recorded, in program order, in a trace.
-/

namespace Collector

/-! ## Go values -/

/-- A Go byte. -/
abbrev Byte := Fin 256

/-- A Go string is an arbitrary sequence of bytes; nothing forces it to be valid UTF-8. -/
abbrev GoString := List Byte

/-- UTF-8 encoding of one code point, as the Go compiler encodes the characters of a
string literal. -/
def encodeRune (c : Nat) : GoString :=
  if c < 0x80 then [Fin.ofNat c]
  else if c < 0x800 then [Fin.ofNat (0xC0 + c / 64), Fin.ofNat (0x80 + c % 64)]
  else if c < 0x10000 then
    [Fin.ofNat (0xE0 + c / 4096), Fin.ofNat (0x80 + c / 64 % 64), Fin.ofNat (0x80 + c % 64)]
  else
    [Fin.ofNat (0xF0 + c / 262144), Fin.ofNat (0x80 + c / 4096 % 64),
     Fin.ofNat (0x80 + c / 64 % 64), Fin.ofNat (0x80 + c % 64)]

/-- The bytes of a Go string literal. -/
def lit (s : String) : GoString :=
  s.toList.flatMap (fun c => encodeRune c.toNat)

/-- Go error values.  `DeadlineExceeded` and `Canceled` are the two errors a
`context.Context` can report; `driver n` stands for any other error value (driver,
SQL, scan or cursor error), told apart by `n`. -/
inductive GoError where
  | DeadlineExceeded
  | Canceled
  | driver (code : Nat)
  deriving DecidableEq, Repr

/-- Type `sql.NullString`: the scanned string and whether the column was non-NULL. -/
structure NullString where
  String : GoString
  Valid : Bool
  deriving DecidableEq, Repr

/-- Type `sql.NullInt64`: the scanned integer (an int64) and whether the column was
non-NULL. -/
structure NullInt64 where
  Int64 : Int
  Valid : Bool
  deriving DecidableEq, Repr

/-! ## context -/

/-- What `ctx.Err()` reports: `none` while the context is live. -/
structure Context where
  err : Option GoError
  deriving DecidableEq, Repr

/-- Function `context.Background()`: never cancelled, no deadline. -/
def Background : Context := ⟨none⟩

/-- Constant `time.Second`, in nanoseconds. -/
def Second : Nat := 1000000000

/-- Constant `timeout_seconds` (line 27). -/
def timeout_seconds : Nat := 1

/-- Function `context.WithTimeout(parent, d)`, observed `elapsed` nanoseconds after
its creation: a done parent makes the child done with the parent's error, otherwise
the child is done with `DeadlineExceeded` once `d` has elapsed. -/
def WithTimeout (parent : Context) (d elapsed : Nat) : Context :=
  match parent.err with
  | some e => ⟨some e⟩
  | none => if d ≤ elapsed then ⟨some GoError.DeadlineExceeded⟩ else ⟨none⟩

/-- The `cancel` function returned by `WithTimeout`: the first cause wins, so it
changes nothing on a context that is already done. -/
def cancel (c : Context) : Context :=
  match c.err with
  | some _ => c
  | none => ⟨some GoError.Canceled⟩

/-! ## float64 -/

/-- Number of bits of `a`, by halving at most `fuel` times. -/
def bitLenAux : Nat → Nat → Nat
  | 0, _ => 0
  | fuel + 1, a => if a = 0 then 0 else bitLenAux fuel (a / 2) + 1

/-- Number of bits of a magnitude below `2 ^ 64`. -/
def bitLen (a : Nat) : Nat := bitLenAux 64 a

/-- Rounding of a magnitude to a 53-bit significand, ties to even: the value of the
float64 nearest to `a`. -/
def roundMag (a : Nat) : Nat :=
  let e := bitLen a - 53
  let q := a / 2 ^ e
  let r := a % 2 ^ e
  let up : Bool := decide (0 < e) && (decide (2 ^ (e - 1) < r) ||
    (decide (r = 2 ^ (e - 1)) && decide (q % 2 = 1)))
  (if up then q + 1 else q) * 2 ^ e

/-- The Go conversion `float64(n)` of an int64 `n`.  The result is always an integer,
so the float64 is carried by its exact numeric value. -/
def float64 (n : Int) : Int :=
  if n < 0 then -((roundMag n.natAbs : Nat) : Int) else ((roundMag n.natAbs : Nat) : Int)

/-! ## prometheus -/

/-- Function `utf8.ValidString`: the well-formed byte sequences of the Unicode
standard (no overlong forms, no surrogates, nothing above U+10FFFF). -/
def ValidString : GoString → Bool
  | [] => true
  | b0 :: rest =>
    if b0.val < 0x80 then ValidString rest
    else match rest with
      | [] => false
      | b1 :: rest1 =>
        if 0xC2 ≤ b0.val ∧ b0.val ≤ 0xDF then
          decide (0x80 ≤ b1.val ∧ b1.val ≤ 0xBF) && ValidString rest1
        else match rest1 with
          | [] => false
          | b2 :: rest2 =>
            if 0xE0 ≤ b0.val ∧ b0.val ≤ 0xEF then
              decide ((if b0.val = 0xE0 then 0xA0 else 0x80) ≤ b1.val) &&
              decide (b1.val ≤ (if b0.val = 0xED then 0x9F else 0xBF)) &&
              decide (0x80 ≤ b2.val ∧ b2.val ≤ 0xBF) && ValidString rest2
            else match rest2 with
              | [] => false
              | b3 :: rest3 =>
                decide (0xF0 ≤ b0.val ∧ b0.val ≤ 0xF4) &&
                decide ((if b0.val = 0xF0 then 0x90 else 0x80) ≤ b1.val) &&
                decide (b1.val ≤ (if b0.val = 0xF4 then 0x8F else 0xBF)) &&
                decide (0x80 ≤ b2.val ∧ b2.val ≤ 0xBF) &&
                decide (0x80 ≤ b3.val ∧ b3.val ≤ 0xBF) && ValidString rest3

/-- Type `prometheus.Desc`, as far as this collector sets it. -/
structure Desc where
  fqName : GoString
  help : GoString
  variableLabels : List GoString
  deriving DecidableEq, Repr

/-- Type `prometheus.ValueType`. -/
inductive ValueType where
  | CounterValue
  | GaugeValue
  | UntypedValue
  deriving DecidableEq, Repr

/-- A constant metric: what `NewConstMetric` builds and the sink receives. -/
structure Metric where
  desc : Desc
  valType : ValueType
  value : Int
  labelValues : List GoString
  deriving DecidableEq, Repr

/-- Function `prometheus.BuildFQName`. -/
def BuildFQName (namespace_ subsystem name : GoString) : GoString :=
  if name = [] then []
  else
    (if namespace_ = [] then [] else namespace_ ++ lit "_") ++
    (if subsystem = [] then [] else subsystem ++ lit "_") ++ name

/-- Function `prometheus.NewConstMetric` on a valid descriptor: it fails when the number
of label values differs from the descriptor's number of variable labels, and when a
label value is not valid UTF-8 (client_golang, `validateLabelValues`). -/
def NewConstMetric (desc : Desc) (valType : ValueType) (value : Int)
    (labelValues : List GoString) : Option Metric :=
  if labelValues.length ≠ desc.variableLabels.length then none
  else if labelValues.all ValidString then some ⟨desc, valType, value, labelValues⟩
  else none

/-- Function `prometheus.MustNewConstMetric`: panics where `NewConstMetric` fails;
`none` is the panic. -/
def MustNewConstMetric (desc : Desc) (valType : ValueType) (value : Int)
    (labelValues : List GoString) : Option Metric :=
  NewConstMetric desc valType value labelValues

/-! ## The collector -/

/-- The two name constants `namespace` and `userTableSubsystem`, which the package
declares in other files. -/
structure Names where
  namespace_ : GoString
  userTableSubsystem : GoString
  deriving DecidableEq, Repr

/-- Descriptor `statUserTablesTotalSize` (lines 43-48). -/
def statUserTablesTotalSize (names : Names) : Desc :=
  { fqName := BuildFQName names.namespace_ names.userTableSubsystem (lit "size_bytes")
    help := lit "Total disk space used by this table, in bytes, including all indexes and TOAST data"
    variableLabels := [lit "datname", lit "schemaname", lit "relname"] }

/-- The four scan targets of one row (lines 82-83). -/
structure Row where
  datname : NullString
  schemaname : NullString
  relname : NullString
  totalSize : NullInt64
  deriving DecidableEq, Repr

/-- What one fetched row does in `rows.Scan`: fill the four targets, or fail. -/
inductive ScanResult where
  | ok (row : Row)
  | fail (e : GoError)
  deriving DecidableEq, Repr

/-- A result cursor (`*sql.Rows`) as the loop sees it: `Next` is true once per
element of `fetched`, `Scan` then gives that element, and after the last element
`Next` is false and `Err` gives `trailing`. -/
structure Cursor where
  fetched : List ScanResult
  trailing : Option GoError
  deriving DecidableEq, Repr

/-- A database handle (`*sql.DB`), as its answer to the static query: the two results
of `QueryContext`. -/
structure DB where
  rows : Option Cursor
  err : Option GoError
  deriving DecidableEq, Repr

/-- Type `instance`: it holds the handle. -/
structure Instance where
  db : DB
  deriving DecidableEq, Repr

/-- Method `instance.getDB`. -/
def Instance.getDB (i : Instance) : DB := i.db

/-- The calls `Update` makes on the outside world, in program order. -/
inductive Event where
  | QueryContext
  | Close
  | Next
  | Scan
  | Err
  | Send (m : Metric)
  | cancel
  deriving DecidableEq, Repr

/-- How a call of `Update` ends. -/
inductive Outcome where
  | returned (err : Option GoError)
  | panicked
  deriving DecidableEq, Repr

/-- Label of a scanned string column (lines 89-100). -/
def label (s : NullString) : GoString :=
  if s.Valid then s.String else lit "unknown"

/-- Value of the scanned size column (lines 102-105). -/
def totalSizeMetric (totalSize : NullInt64) : Int :=
  if totalSize.Valid then float64 totalSize.Int64 else 0

/-- The sample built from one scanned row (lines 89-111); `none` is the panic of
`MustNewConstMetric`. -/
def rowMetric (names : Names) (row : Row) : Option Metric :=
  MustNewConstMetric (statUserTablesTotalSize names) ValueType.GaugeValue
    (totalSizeMetric row.totalSize)
    [label row.datname, label row.schemaname, label row.relname]

/-- The loop and the trailing check (lines 81-117), up to the point where the function
leaves its body. -/
def iterate (names : Names) (trailing : Option GoError) :
    List ScanResult → Outcome × List Event
  | [] => (Outcome.returned trailing, [Event.Next, Event.Err])
  | ScanResult.fail e :: _ => (Outcome.returned (some e), [Event.Next, Event.Scan])
  | ScanResult.ok row :: rest =>
    match rowMetric names row with
    | none => (Outcome.panicked, [Event.Next, Event.Scan])
    | some m =>
      let r := iterate names trailing rest
      (r.1, Event.Next :: Event.Scan :: Event.Send m :: r.2)

/-- Method `PGStatUserTablesSizeCollector.Update` (lines 59-118).  `elapsed` is the time
in nanoseconds between the creation of the sub-context and the return of
`QueryContext`.  The deferred calls run when the body is left, a panic included:
`rows.Close()` first, then `cancel()`.  With neither an expired sub-context nor an
error, a nil `rows` makes `rows.Next()` panic on the nil pointer, and the deferred
`rows.Close()` is still called. -/
def Update (names : Names) (_ctx : Context) (inst : Instance) (elapsed : Nat) :
    Outcome × List Event :=
  let db := inst.getDB
  let ctx_timeout := WithTimeout Background (timeout_seconds * Second) elapsed
  let rows := db.rows
  let err := db.err
  if ctx_timeout.err ≠ none then
    (Outcome.returned (cancel ctx_timeout).err,
      [Event.QueryContext] ++ (if rows ≠ none then [Event.Close] else []) ++
        [Event.cancel] ++ [Event.cancel])
  else if err ≠ none then
    (Outcome.returned err, [Event.QueryContext] ++ [Event.cancel])
  else
    match rows with
    | none =>
      (Outcome.panicked,
        [Event.QueryContext] ++ [Event.Next] ++ [Event.Close] ++ [Event.cancel])
    | some cur =>
      let r := iterate names cur.trailing cur.fetched
      (r.1, [Event.QueryContext] ++ r.2 ++ [Event.Close] ++ [Event.cancel])

/-- The sample of a row as lines 89-111 assemble it, before `MustNewConstMetric`
validates it. -/
def project (names : Names) (row : Row) : Metric :=
  { desc := statUserTablesTotalSize names
    valType := ValueType.GaugeValue
    value := totalSizeMetric row.totalSize
    labelValues := [label row.datname, label row.schemaname, label row.relname] }

/-- The three labels of a row are valid UTF-8. -/
def validRow (row : Row) : Bool :=
  ValidString (label row.datname) && ValidString (label row.schemaname) &&
    ValidString (label row.relname)

/-- The samples sent on the sink, in order. -/
def sent : List Event → List Metric
  | [] => []
  | Event.Send m :: t => m :: sent t
  | _ :: t => sent t

/-- Number of `Close` calls on the cursor. -/
def closes (t : List Event) : Nat := t.count Event.Close

/-- The trace of the loop over rows that scan and whose sample is built. -/
def rowEvents (names : Names) (pre : List Row) : List Event :=
  pre.flatMap (fun r => [Event.Next, Event.Scan, Event.Send (project names r)])

/-! ## Concrete inputs -/

/-- Example name constants. -/
def exampleNames : Names := ⟨lit "pg", lit "stat_user_tables"⟩

/-- Scenario A: the rows `("db1","public","t1",4096)` and `(NULL,"public","t2",NULL)`. -/
def scenarioA : List Row :=
  [⟨⟨lit "db1", true⟩, ⟨lit "public", true⟩, ⟨lit "t1", true⟩, ⟨4096, true⟩⟩,
   ⟨⟨[], false⟩, ⟨lit "public", true⟩, ⟨lit "t2", true⟩, ⟨0, false⟩⟩]

/-- An instance whose query answers with a cursor and no error. -/
def instanceOf (cur : Cursor) : Instance := ⟨⟨some cur, none⟩⟩

/-- An instance whose query answers with an error and no cursor. -/
def failingInstance (e : GoError) : Instance := ⟨⟨none, some e⟩⟩

/-- A row whose relation name is the single byte 0xFF, which is not valid UTF-8. -/
def rowFF : Row :=
  ⟨⟨lit "db1", true⟩, ⟨lit "public", true⟩, ⟨[0xFF], true⟩, ⟨1, true⟩⟩

/-- A row whose database name is the single continuation byte 0x80. -/
def row80 : Row :=
  ⟨⟨[0x80], true⟩, ⟨lit "public", true⟩, ⟨lit "t1", true⟩, ⟨1, true⟩⟩

/-- A row whose schema name is the overlong two-byte form 0xC0 0x80. -/
def rowC080 : Row :=
  ⟨⟨lit "db1", true⟩, ⟨[0xC0, 0x80], true⟩, ⟨lit "t1", true⟩, ⟨1, true⟩⟩

/-- A row with a NULL column, an empty string and a plain string, of size 4096. -/
def rowMixed : Row :=
  ⟨⟨[], false⟩, ⟨[], true⟩, ⟨lit "t1", true⟩, ⟨4096, true⟩⟩

/-- A row of size `2 ^ 53 + 1`. -/
def rowBig : Row :=
  ⟨⟨lit "db1", true⟩, ⟨lit "public", true⟩, ⟨lit "t1", true⟩, ⟨2 ^ 53 + 1, true⟩⟩

/-! ## Lemmas on the embedding -/

theorem withTimeout_expired (elapsed : Nat) (h : timeout_seconds * Second ≤ elapsed) :
    WithTimeout Background (timeout_seconds * Second) elapsed =
      ⟨some GoError.DeadlineExceeded⟩ := by
  simp [WithTimeout, Background, h]

theorem withTimeout_live (elapsed : Nat) (h : elapsed < timeout_seconds * Second) :
    WithTimeout Background (timeout_seconds * Second) elapsed = ⟨none⟩ := by
  simp [WithTimeout, Background, Nat.not_le.mpr h]

theorem update_expired (names : Names) (ctx : Context) (inst : Instance) (elapsed : Nat)
    (h : timeout_seconds * Second ≤ elapsed) :
    Update names ctx inst elapsed =
      (Outcome.returned (some GoError.DeadlineExceeded),
        [Event.QueryContext] ++ (if inst.db.rows ≠ none then [Event.Close] else []) ++
          [Event.cancel] ++ [Event.cancel]) := by
  simp [Update, withTimeout_expired elapsed h, cancel, Instance.getDB]

theorem update_error (names : Names) (ctx : Context) (inst : Instance) (elapsed : Nat)
    (h : elapsed < timeout_seconds * Second) (e : GoError) (he : inst.db.err = some e) :
    Update names ctx inst elapsed =
      (Outcome.returned (some e), [Event.QueryContext, Event.cancel]) := by
  simp [Update, withTimeout_live elapsed h, Instance.getDB, he]

theorem update_rows (names : Names) (ctx : Context) (inst : Instance) (elapsed : Nat)
    (h : elapsed < timeout_seconds * Second) (he : inst.db.err = none) (cur : Cursor)
    (hr : inst.db.rows = some cur) :
    Update names ctx inst elapsed =
      ((iterate names cur.trailing cur.fetched).1,
        [Event.QueryContext] ++ (iterate names cur.trailing cur.fetched).2 ++
          [Event.Close] ++ [Event.cancel]) := by
  simp [Update, withTimeout_live elapsed h, Instance.getDB, he, hr]

theorem update_nil (names : Names) (ctx : Context) (inst : Instance) (elapsed : Nat)
    (h : elapsed < timeout_seconds * Second) (he : inst.db.err = none)
    (hr : inst.db.rows = none) :
    Update names ctx inst elapsed =
      (Outcome.panicked, [Event.QueryContext, Event.Next, Event.Close, Event.cancel]) := by
  simp [Update, withTimeout_live elapsed h, Instance.getDB, he, hr]

theorem rowMetric_of_valid (names : Names) (row : Row) (h : validRow row = true) :
    rowMetric names row = some (project names row) := by
  simp only [validRow, Bool.and_eq_true] at h
  simp [rowMetric, MustNewConstMetric, NewConstMetric, project, statUserTablesTotalSize, h]

theorem rowMetric_of_invalid (names : Names) (row : Row) (h : validRow row = false) :
    rowMetric names row = none := by
  simp only [validRow, Bool.and_eq_false_iff] at h
  simp only [rowMetric, MustNewConstMetric, NewConstMetric, statUserTablesTotalSize,
    List.length_cons, List.length_nil, ne_eq, not_true_eq_false, if_false, List.all_cons,
    List.all_nil, Bool.and_true]
  rcases h with (h | h) | h <;> simp [h]

theorem rowMetric_some (names : Names) (row : Row) (m : Metric)
    (h : rowMetric names row = some m) : validRow row = true ∧ m = project names row := by
  cases hv : validRow row with
  | false => rw [rowMetric_of_invalid names row hv] at h; cases h
  | true =>
    rw [rowMetric_of_valid names row hv] at h
    exact ⟨rfl, (Option.some.inj h).symm⟩

theorem iterate_ok_rows (names : Names) (trailing : Option GoError) (pre : List Row)
    (rest : List ScanResult) (hv : ∀ r ∈ pre, validRow r = true) :
    iterate names trailing (pre.map ScanResult.ok ++ rest) =
      ((iterate names trailing rest).1,
        rowEvents names pre ++ (iterate names trailing rest).2) := by
  induction pre with
  | nil => simp [rowEvents]
  | cons r pre ih =>
    have hr : validRow r = true := hv r (List.mem_cons_self _ _)
    have ih2 := ih (fun x hx => hv x (List.mem_cons_of_mem _ hx))
    simp only [List.map_cons, List.cons_append, iterate, rowMetric_of_valid names r hr,
      List.append_eq]
    rw [ih2]
    simp [rowEvents]

theorem sent_append (s t : List Event) : sent (s ++ t) = sent s ++ sent t := by
  induction s with
  | nil => simp [sent]
  | cons a s ih => cases a <;> simp [sent, ih]

theorem sent_rowEvents (names : Names) (pre : List Row) :
    sent (rowEvents names pre) = pre.map (project names) := by
  induction pre with
  | nil => simp [rowEvents, sent]
  | cons r pre ih =>
    simp only [rowEvents, List.flatMap_cons, List.map_cons] at ih ⊢
    simp [sent, ih]

theorem close_not_mem_iterate (names : Names) (trailing : Option GoError)
    (l : List ScanResult) : Event.Close ∉ (iterate names trailing l).2 := by
  induction l with
  | nil => simp [iterate]
  | cons a l ih =>
    cases a with
    | fail e => simp [iterate]
    | ok row =>
      cases h : rowMetric names row with
      | none => simp [iterate, h]
      | some m => simp [iterate, h, ih]

theorem iterate_returns (names : Names) (trailing : Option GoError) (l : List ScanResult)
    (hv : ∀ row, ScanResult.ok row ∈ l → validRow row = true) :
    ∃ e, (iterate names trailing l).1 = Outcome.returned e := by
  induction l with
  | nil => exact ⟨trailing, rfl⟩
  | cons a l ih =>
    cases a with
    | fail e => exact ⟨some e, rfl⟩
    | ok row =>
      have hr : validRow row = true := hv row (List.mem_cons_self _ _)
      obtain ⟨e, he⟩ := ih (fun x hx => hv x (List.mem_cons_of_mem _ hx))
      exact ⟨e, by simp [iterate, rowMetric_of_valid names row hr, he]⟩

theorem bitLenAux_le (fuel : Nat) : ∀ (k a : Nat), a < 2 ^ k → bitLenAux fuel a ≤ k := by
  induction fuel with
  | zero => intro k a _; simp [bitLenAux]
  | succ fuel ih =>
    intro k a h
    by_cases ha : a = 0
    · simp [bitLenAux, ha]
    · cases k with
      | zero => simp at h; exact absurd h ha
      | succ k =>
        have h2 : a / 2 < 2 ^ k := by
          rw [Nat.div_lt_iff_lt_mul (by norm_num)]
          rw [pow_succ] at h
          exact h
        have := ih k (a / 2) h2
        simp [bitLenAux, ha]
        exact this

theorem roundMag_exact (a : Nat) (h : a ≤ 2 ^ 53) : roundMag a = a := by
  rcases Nat.lt_or_ge a (2 ^ 53) with hlt | hge
  · have hb : bitLen a - 53 = 0 := Nat.sub_eq_zero_of_le (bitLenAux_le 64 53 a hlt)
    simp [roundMag, hb]
  · have : a = 2 ^ 53 := Nat.le_antisymm h hge
    subst this
    decide

theorem roundMag_near (a : Nat) (h : a < 2 ^ 63) :
    roundMag a ≤ a + 512 ∧ a ≤ roundMag a + 512 := by
  have hb : bitLen a - 53 ≤ 10 := by
    have := bitLenAux_le 64 63 a h
    unfold bitLen
    omega
  generalize he : bitLen a - 53 = e at hb
  have hdm : 2 ^ e * (a / 2 ^ e) + a % 2 ^ e = a := Nat.div_add_mod a (2 ^ e)
  have hr : a % 2 ^ e < 2 ^ e := Nat.mod_lt _ (by positivity)
  rcases Nat.eq_zero_or_pos e with h0 | hpos
  · subst h0
    simp [roundMag, he]
  · have hp : 2 ^ e = 2 * 2 ^ (e - 1) := by
      conv_lhs => rw [show e = (e - 1) + 1 by omega]
      rw [pow_succ, Nat.mul_comm]
    have hh : 2 ^ (e - 1) ≤ 512 := by
      calc 2 ^ (e - 1) ≤ 2 ^ 9 := Nat.pow_le_pow_right (by norm_num) (by omega)
        _ = 512 := by norm_num
    simp only [roundMag, he]
    generalize 2 ^ (e - 1) = hf at hp hh
    generalize a % 2 ^ e = r at hdm hr
    generalize a / 2 ^ e = q at hdm
    generalize 2 ^ e = p at hdm hr hp
    have hx : (q + 1) * p = p * q + p := by ring
    have hy : q * p = p * q := by ring
    split
    · rename_i hup
      simp only [Bool.and_eq_true, Bool.or_eq_true, decide_eq_true_eq] at hup
      rw [hx]
      omega
    · rename_i hup
      simp only [Bool.and_eq_true, Bool.or_eq_true, decide_eq_true_eq, not_and, not_or] at hup
      have := (hup hpos).1
      rw [hy]
      omega

theorem lt_pow_bitLenAux (fuel : Nat) : ∀ a : Nat, a < 2 ^ fuel → a < 2 ^ bitLenAux fuel a := by
  induction fuel with
  | zero => intro a h; simpa [bitLenAux] using h
  | succ fuel ih =>
    intro a h
    by_cases ha : a = 0
    · simp [bitLenAux, ha]
    · have h2 : a / 2 < 2 ^ fuel := by
        rw [Nat.div_lt_iff_lt_mul (by norm_num)]
        rw [pow_succ] at h
        exact h
      have h3 := ih (a / 2) h2
      simp only [bitLenAux, ha, if_false, pow_succ]
      omega

theorem roundMag_of_significand (s k : Nat) (hs : s < 2 ^ 53) :
    roundMag (s * 2 ^ k) = s * 2 ^ k := by
  have hlt : s * 2 ^ k < 2 ^ (53 + k) := by
    rw [pow_add]
    exact Nat.mul_lt_mul_of_pos_right hs (by positivity)
  have hb : bitLen (s * 2 ^ k) - 53 ≤ k := by
    have := bitLenAux_le 64 (53 + k) _ hlt
    unfold bitLen
    omega
  generalize he : bitLen (s * 2 ^ k) - 53 = e at hb
  have hdvd : 2 ^ e ∣ s * 2 ^ k := Dvd.dvd.mul_left (pow_dvd_pow 2 hb) s
  have hr : s * 2 ^ k % 2 ^ e = 0 := Nat.mod_eq_zero_of_dvd hdvd
  have hpos : 0 < 2 ^ (e - 1) := by positivity
  have h1 : ¬ (2 ^ (e - 1) < 0) := by omega
  have h2 : ¬ (0 = 2 ^ (e - 1)) := by omega
  simp only [roundMag, he, hr, h1, h2, decide_False, Bool.false_and, Bool.or_false, Bool.and_false,
    Bool.false_eq_true, if_false]
  exact Nat.div_mul_cancel hdvd

theorem roundMag_significand (a : Nat) (h : a < 2 ^ 64) :
    ∃ s k : Nat, s < 2 ^ 53 ∧ roundMag a = s * 2 ^ k := by
  have hlt : a < 2 ^ bitLen a := lt_pow_bitLenAux 64 a h
  have hq : a / 2 ^ (bitLen a - 53) < 2 ^ 53 := by
    rw [Nat.div_lt_iff_lt_mul (by positivity), ← pow_add]
    exact lt_of_lt_of_le hlt (Nat.pow_le_pow_right (by norm_num) (by omega))
  simp only [roundMag]
  generalize bitLen a - 53 = e at hq
  generalize a / 2 ^ e = q at hq
  split
  · rcases Nat.lt_or_ge (q + 1) (2 ^ 53) with h1 | h1
    · exact ⟨q + 1, e, h1, rfl⟩
    · have : q + 1 = 2 ^ 53 := by omega
      exact ⟨1, 53 + e, by norm_num, by rw [this, pow_add]; ring⟩
  · exact ⟨q, e, hq, rfl⟩
theorem float64_exact_iff (n : Int) (h0 : 0 ≤ n) (h : n < 2 ^ 63) :
    float64 n = n ↔ ∃ s k : Nat, s < 2 ^ 53 ∧ n = ((s * 2 ^ k : Nat) : Int) := by
  have hn : n.natAbs < 2 ^ 64 := by omega
  have hcast : ((n.natAbs : Nat) : Int) = n := Int.natAbs_of_nonneg h0
  simp only [float64, not_lt.mpr h0, if_false]
  constructor
  · intro heq
    obtain ⟨s, k, hs, hsk⟩ := roundMag_significand n.natAbs hn
    refine ⟨s, k, hs, ?_⟩
    rw [← hsk, heq]
  · rintro ⟨s, k, hs, hsk⟩
    have ha : n.natAbs = s * 2 ^ k := by
      rw [hsk, Int.natAbs_ofNat]
    rw [ha, roundMag_of_significand s k hs, ← ha, hcast]

theorem sent_iterate_mem (names : Names) (trailing : Option GoError) (l : List ScanResult)
    (m : Metric) (hm : m ∈ sent (iterate names trailing l).2) :
    ∃ row, ScanResult.ok row ∈ l ∧ rowMetric names row = some m := by
  induction l with
  | nil => simp [iterate, sent] at hm
  | cons a l ih =>
    cases a with
    | fail e => simp [iterate, sent] at hm
    | ok row =>
      cases h : rowMetric names row with
      | none => simp [iterate, h, sent] at hm
      | some m0 =>
        simp only [iterate, h, sent, List.mem_cons] at hm
        rcases hm with hm | hm
        · exact ⟨row, List.mem_cons_self _ _, by rw [h, hm]⟩
        · obtain ⟨r, hr, hrm⟩ := ih hm
          exact ⟨r, List.mem_cons_of_mem _ hr, hrm⟩

theorem sent_update_mem (names : Names) (ctx : Context) (inst : Instance) (elapsed : Nat)
    (m : Metric) (hm : m ∈ sent (Update names ctx inst elapsed).2) :
    ∃ cur row, inst.db.rows = some cur ∧ ScanResult.ok row ∈ cur.fetched ∧
      rowMetric names row = some m := by
  rcases Nat.lt_or_ge elapsed (timeout_seconds * Second) with hlive | hexp
  · cases herr : inst.db.err with
    | some e =>
      rw [update_error names ctx inst elapsed hlive e herr] at hm
      simp [sent] at hm
    | none =>
      cases hrows : inst.db.rows with
      | none =>
        rw [update_nil names ctx inst elapsed hlive herr hrows] at hm
        simp [sent] at hm
      | some cur =>
        rw [update_rows names ctx inst elapsed hlive herr cur hrows] at hm
        rw [sent_append, sent_append] at hm
        simp only [sent, List.append_nil] at hm
        have hm2 : m ∈ sent (iterate names cur.trailing cur.fetched).2 := by
          simpa [sent_append, sent] using hm
        obtain ⟨row, hr, hrm⟩ := sent_iterate_mem names cur.trailing cur.fetched m hm2
        exact ⟨cur, row, rfl, hr, hrm⟩
  · rw [update_expired names ctx inst elapsed hexp] at hm
    split at hm <;> simp [sent] at hm

theorem float64_exact (n : Int) (h0 : 0 ≤ n) (h : n ≤ 2 ^ 53) : float64 n = n := by
  have hn : n.natAbs ≤ 2 ^ 53 := by omega
  simp only [float64, roundMag_exact n.natAbs hn, not_lt.mpr h0, if_false]
  omega

theorem float64_near (n : Int) (h0 : 0 ≤ n) (h : n < 2 ^ 63) :
    |float64 n - n| ≤ 512 := by
  have hn : n.natAbs < 2 ^ 63 := by omega
  have := roundMag_near n.natAbs hn
  simp only [float64, not_lt.mpr h0, if_false]
  rw [abs_le]
  omega

/-! ## The claims -/

/-- C1 (counterexample): one row that scans, with the relation name 0xFF, no error, no
expiry, no trailing error: `Update` panics instead of returning nil and sends nothing. -/
theorem update_success_counterexample :
    (Update exampleNames Background (instanceOf ⟨[ScanResult.ok rowFF], none⟩) 0).1 =
        Outcome.panicked ∧
      (Update exampleNames Background (instanceOf ⟨[ScanResult.ok rowFF], none⟩) 0).1 ≠
        Outcome.returned none ∧
      sent (Update exampleNames Background (instanceOf ⟨[ScanResult.ok rowFF], none⟩) 0).2 =
        [] := by
  decide

/-- C1 (amended): if the sub-context has not expired when the query returns, the query
returns no error, every row scans, every label is valid UTF-8 and the cursor has no
trailing error, then `Update` returns nil and the sink receives exactly one sample per
row, in row order, each against the fixed descriptor with labels in the order datname,
schemaname, relname; for zero rows nothing is sent. -/
theorem update_success (names : Names) (ctx : Context) (inst : Instance) (elapsed : Nat)
    (rows : List Row)
    (hlive : elapsed < timeout_seconds * Second)
    (herr : inst.db.err = none)
    (hrows : inst.db.rows = some ⟨rows.map ScanResult.ok, none⟩)
    (hvalid : ∀ r ∈ rows, validRow r = true) :
    (Update names ctx inst elapsed).1 = Outcome.returned none ∧
      sent (Update names ctx inst elapsed).2 =
        rows.map (fun r =>
          { desc := statUserTablesTotalSize names
            valType := ValueType.GaugeValue
            value := totalSizeMetric r.totalSize
            labelValues := [label r.datname, label r.schemaname, label r.relname] }) ∧
      (statUserTablesTotalSize names).variableLabels =
        [lit "datname", lit "schemaname", lit "relname"] ∧
      (rows = [] → sent (Update names ctx inst elapsed).2 = []) := by
  have hu := update_rows names ctx inst elapsed hlive herr _ hrows
  have hi := iterate_ok_rows names none rows [] hvalid
  simp only [List.append_nil] at hi
  have hs : sent (Update names ctx inst elapsed).2 = rows.map (project names) := by
    rw [hu]
    simp only [hi, sent_append, sent_rowEvents]
    simp [iterate, sent]
  refine ⟨?_, ?_, rfl, ?_⟩
  · rw [hu]; simp only [hi]; rfl
  · rw [hs]; rfl
  · intro h0; rw [hs, h0]; rfl

/-- C1 (witness): scenario A gives the samples [db1,public,t1]=4096 and
[unknown,public,t2]=0, and nil. -/
theorem update_success_witness :
    (Update exampleNames Background (instanceOf ⟨scenarioA.map ScanResult.ok, none⟩) 0).1 =
        Outcome.returned none ∧
      sent (Update exampleNames Background
          (instanceOf ⟨scenarioA.map ScanResult.ok, none⟩) 0).2 =
        [⟨statUserTablesTotalSize exampleNames, ValueType.GaugeValue, 4096,
            [lit "db1", lit "public", lit "t1"]⟩,
         ⟨statUserTablesTotalSize exampleNames, ValueType.GaugeValue, 0,
            [lit "unknown", lit "public", lit "t2"]⟩] := by
  have h := update_success exampleNames Background
    (instanceOf ⟨scenarioA.map ScanResult.ok, none⟩) 0 scenarioA (by decide) rfl rfl
    (by decide)
  refine ⟨h.1, ?_⟩
  rw [h.2.1]
  decide

/-- C2: in the sample emitted for a scanned row, each of the three label values is the
literal "unknown" when its column is NULL and otherwise exactly the column's string,
the empty string included, in the order datname, schemaname, relname; and every sample
`Update` sends is the sample of a row its cursor delivered. -/
theorem labels_default (names : Names) :
    (∀ (row : Row) (m : Metric), rowMetric names row = some m →
      m.labelValues =
        [if row.datname.Valid = true then row.datname.String else lit "unknown",
         if row.schemaname.Valid = true then row.schemaname.String else lit "unknown",
         if row.relname.Valid = true then row.relname.String else lit "unknown"]) ∧
      (∀ (ctx : Context) (inst : Instance) (elapsed : Nat) (m : Metric),
        m ∈ sent (Update names ctx inst elapsed).2 →
        ∃ cur row, inst.db.rows = some cur ∧ ScanResult.ok row ∈ cur.fetched ∧
          rowMetric names row = some m) := by
  constructor
  · intro row m h
    rw [(rowMetric_some names row m h).2]
    rfl
  · intro ctx inst elapsed m hm
    exact sent_update_mem names ctx inst elapsed m hm

/-- C2 (witness): a NULL datname, an empty schemaname and the relname "t1" give the
labels "unknown", "" and "t1", and the sample sent for that row is the row's. -/
theorem labels_default_witness :
    rowMetric exampleNames rowMixed = some (project exampleNames rowMixed) ∧
      (project exampleNames rowMixed).labelValues = [lit "unknown", [], lit "t1"] ∧
      ∃ cur row, (instanceOf ⟨[ScanResult.ok rowMixed], none⟩).db.rows = some cur ∧
        ScanResult.ok row ∈ cur.fetched ∧
        rowMetric exampleNames row = some (project exampleNames rowMixed) :=
  ⟨by decide,
   ((labels_default exampleNames).1 rowMixed _ (by decide)).trans (by decide),
   (labels_default exampleNames).2 Background (instanceOf ⟨[ScanResult.ok rowMixed], none⟩) 0
     (project exampleNames rowMixed) (by decide)⟩

/-- C3 (counterexample): the size `2 ^ 53 + 1` lies in `[0, 2 ^ 63)` and is emitted as
`2 ^ 53`, which is not numerically equal to it. -/
theorem value_counterexample :
    (0 : Int) ≤ rowBig.totalSize.Int64 ∧ rowBig.totalSize.Int64 < 2 ^ 63 ∧
      rowBig.totalSize.Valid = true ∧
      (rowMetric exampleNames rowBig).map Metric.value = some (2 ^ 53) ∧
      (rowMetric exampleNames rowBig).map Metric.value ≠ some rowBig.totalSize.Int64 := by
  decide

/-- C3 (amended): in the sample emitted for a scanned row the value is 0 when the size
column is NULL.  For a non-NULL size `n` with `0 ≤ n < 2 ^ 63` the value is numerically
equal to `n` exactly when `n` has at most 53 significant bits (`n = s * 2 ^ k` with
`s < 2 ^ 53`), which every `n ≤ 2 ^ 53` has; in every case it lies within 512 of `n`. -/
theorem value_default (names : Names) (row : Row) (m : Metric)
    (h : rowMetric names row = some m) :
    (row.totalSize.Valid = false → m.value = 0) ∧
      (row.totalSize.Valid = true → 0 ≤ row.totalSize.Int64 →
        row.totalSize.Int64 < 2 ^ 63 →
        (m.value = row.totalSize.Int64 ↔
          ∃ s k : Nat, s < 2 ^ 53 ∧ row.totalSize.Int64 = ((s * 2 ^ k : Nat) : Int))) ∧
      (row.totalSize.Valid = true → 0 ≤ row.totalSize.Int64 →
        row.totalSize.Int64 ≤ 2 ^ 53 → m.value = row.totalSize.Int64) ∧
      (row.totalSize.Valid = true → 0 ≤ row.totalSize.Int64 →
        row.totalSize.Int64 < 2 ^ 63 → |m.value - row.totalSize.Int64| ≤ 512) := by
  rw [(rowMetric_some names row m h).2]
  refine ⟨?_, ?_, ?_, ?_⟩
  · intro hv
    simp [project, totalSizeMetric, hv]
  · intro hv h0 h1
    simp only [project, totalSizeMetric, hv, if_true]
    exact float64_exact_iff _ h0 h1
  · intro hv h0 h1
    simp only [project, totalSizeMetric, hv, if_true]
    exact float64_exact _ h0 h1
  · intro hv h0 h1
    simp only [project, totalSizeMetric, hv, if_true]
    exact float64_near _ h0 h1

/-- C3 (witness): the size 4096 is emitted as 4096; the size `2 ^ 53 + 1` is emitted
within 512 of itself, and not as itself, so it has more than 53 significant bits. -/
theorem value_default_witness :
    rowMetric exampleNames rowMixed = some (project exampleNames rowMixed) ∧
      (project exampleNames rowMixed).value = 4096 ∧
      rowMetric exampleNames rowBig = some (project exampleNames rowBig) ∧
      |(project exampleNames rowBig).value - (2 ^ 53 + 1)| ≤ 512 ∧
      ¬ ∃ s k : Nat, s < 2 ^ 53 ∧ (2 ^ 53 + 1 : Int) = ((s * 2 ^ k : Nat) : Int) :=
  ⟨by decide,
   (value_default exampleNames rowMixed _ (by decide)).2.2.1 (by decide) (by decide)
     (by decide),
   by decide,
   (value_default exampleNames rowBig _ (by decide)).2.2.2 (by decide) (by decide)
     (by decide),
   fun hrep => absurd
     (((value_default exampleNames rowBig (project exampleNames rowBig) (by decide)).2.1
       (by decide) (by decide) (by decide)).2 hrep) (by decide)⟩

/-- C4 (counterexample): the query fails with a driver error that is no timeout error,
two seconds after the sub-context was created: `Update` returns the deadline error, not
the driver error. -/
theorem update_query_error_counterexample :
    (Update exampleNames Background (failingInstance (GoError.driver 7)) (2 * Second)).1 =
        Outcome.returned (some GoError.DeadlineExceeded) ∧
      (Update exampleNames Background (failingInstance (GoError.driver 7)) (2 * Second)).1 ≠
        Outcome.returned (some (GoError.driver 7)) := by
  decide

/-- C4 (amended): if the sub-context has not expired when the query call returns, then
for every error `e` the query call returns, `Update` returns exactly `e`; its only calls
are the query and the deferred `cancel`, so nothing is sent on the sink and the sink is
not touched. -/
theorem update_query_error (names : Names) (ctx : Context) (inst : Instance)
    (elapsed : Nat) (e : GoError)
    (hlive : elapsed < timeout_seconds * Second)
    (herr : inst.db.err = some e) :
    (Update names ctx inst elapsed).1 = Outcome.returned (some e) ∧
      (Update names ctx inst elapsed).2 = [Event.QueryContext, Event.cancel] ∧
      sent (Update names ctx inst elapsed).2 = [] := by
  rw [update_error names ctx inst elapsed hlive e herr]
  exact ⟨rfl, rfl, rfl⟩

/-- C4 (witness): a driver error half a second after the start is returned as it is. -/
theorem update_query_error_witness :
    (Update exampleNames Background (failingInstance (GoError.driver 7)) 500000000).1 =
        Outcome.returned (some (GoError.driver 7)) ∧
      sent (Update exampleNames Background (failingInstance (GoError.driver 7))
        500000000).2 = [] :=
  have h := update_query_error exampleNames Background (failingInstance (GoError.driver 7))
    500000000 (GoError.driver 7) (by decide) rfl
  ⟨h.1, h.2.2⟩

/-- C5: if the deadline of the sub-context has passed when the query call returns, then
whatever the call returned (cursor or none, error or none), `Update` returns the
sub-context's `DeadlineExceeded`, calls neither `Next` nor `Scan`, and sends nothing. -/
theorem update_timeout (names : Names) (ctx : Context) (inst : Instance) (elapsed : Nat)
    (hexp : timeout_seconds * Second ≤ elapsed) :
    (Update names ctx inst elapsed).1 = Outcome.returned (some GoError.DeadlineExceeded) ∧
      Event.Next ∉ (Update names ctx inst elapsed).2 ∧
      Event.Scan ∉ (Update names ctx inst elapsed).2 ∧
      sent (Update names ctx inst elapsed).2 = [] := by
  rw [update_expired names ctx inst elapsed hexp]
  refine ⟨rfl, ?_, ?_, ?_⟩ <;> split <;> simp [sent]

/-- C5 (witness): scenario A answered after exactly one second. -/
theorem update_timeout_witness :
    (Update exampleNames Background (instanceOf ⟨scenarioA.map ScanResult.ok, none⟩)
        1000000000).1 = Outcome.returned (some GoError.DeadlineExceeded) ∧
      sent (Update exampleNames Background (instanceOf ⟨scenarioA.map ScanResult.ok, none⟩)
        1000000000).2 = [] :=
  have h := update_timeout exampleNames Background
    (instanceOf ⟨scenarioA.map ScanResult.ok, none⟩) 1000000000 (by decide)
  ⟨h.1, h.2.2.2⟩

/-- C7 (counterexample): the first row scans, with the database name 0x80, and the
second row fails to scan with a driver error: `Update` panics on the first row, so it
does not return that error and the sink holds no sample of the first row. -/
theorem update_stops_at_failure_counterexample :
    (Update exampleNames Background
        (instanceOf ⟨[ScanResult.ok row80, ScanResult.fail (GoError.driver 3)], none⟩) 0).1 =
        Outcome.panicked ∧
      (Update exampleNames Background
        (instanceOf ⟨[ScanResult.ok row80, ScanResult.fail (GoError.driver 3)], none⟩) 0).1 ≠
        Outcome.returned (some (GoError.driver 3)) ∧
      sent (Update exampleNames Background
        (instanceOf ⟨[ScanResult.ok row80, ScanResult.fail (GoError.driver 3)], none⟩) 0).2 ≠
        [project exampleNames row80] := by
  decide

/-- C7 (amended): with a live sub-context and no query error, if the first `k` rows scan
and have valid UTF-8 labels and iteration then ends in a failure `e` (the next row fails
to scan, whatever follows it, or the cursor has no more rows and reports the trailing
error `e`), `Update` returns exactly `e` and the samples on the sink are the samples of
those `k` rows, in row order: nothing is retracted and nothing is sent for the failing
row or a later one. -/
theorem update_stops_at_failure (names : Names) (ctx : Context) (inst : Instance) (elapsed : Nat)
    (pre : List Row) (e : GoError)
    (hlive : elapsed < timeout_seconds * Second)
    (herr : inst.db.err = none)
    (hvalid : ∀ r ∈ pre, validRow r = true) :
    (∀ (later : List ScanResult) (trailing : Option GoError),
        inst.db.rows = some ⟨pre.map ScanResult.ok ++ ScanResult.fail e :: later, trailing⟩ →
        (Update names ctx inst elapsed).1 = Outcome.returned (some e) ∧
          sent (Update names ctx inst elapsed).2 = pre.map (project names)) ∧
      (inst.db.rows = some ⟨pre.map ScanResult.ok, some e⟩ →
        (Update names ctx inst elapsed).1 = Outcome.returned (some e) ∧
          sent (Update names ctx inst elapsed).2 = pre.map (project names)) := by
  constructor
  · intro later trailing hrows
    rw [update_rows names ctx inst elapsed hlive herr _ hrows]
    have hi := iterate_ok_rows names trailing pre (ScanResult.fail e :: later) hvalid
    simp only [hi, sent_append, sent_rowEvents]
    simp [iterate, sent]
  · intro hrows
    rw [update_rows names ctx inst elapsed hlive herr _ hrows]
    have hi := iterate_ok_rows names (some e) pre [] hvalid
    simp only [List.append_nil] at hi
    simp only [hi, sent_append, sent_rowEvents]
    simp [iterate, sent]

/-- C7 (witness): scenario A followed by a row that fails to scan, and scenario A
followed by a trailing cursor error. -/
theorem update_stops_at_failure_witness :
    ((Update exampleNames Background
        (instanceOf ⟨scenarioA.map ScanResult.ok ++
          ScanResult.fail (GoError.driver 3) :: [ScanResult.ok rowMixed], none⟩) 0).1 =
        Outcome.returned (some (GoError.driver 3)) ∧
      sent (Update exampleNames Background
        (instanceOf ⟨scenarioA.map ScanResult.ok ++
          ScanResult.fail (GoError.driver 3) :: [ScanResult.ok rowMixed], none⟩) 0).2 =
        scenarioA.map (project exampleNames)) ∧
    ((Update exampleNames Background
        (instanceOf ⟨scenarioA.map ScanResult.ok, some (GoError.driver 3)⟩) 0).1 =
        Outcome.returned (some (GoError.driver 3)) ∧
      sent (Update exampleNames Background
        (instanceOf ⟨scenarioA.map ScanResult.ok, some (GoError.driver 3)⟩) 0).2 =
        scenarioA.map (project exampleNames)) :=
  ⟨(update_stops_at_failure exampleNames Background
      (instanceOf ⟨scenarioA.map ScanResult.ok ++
        ScanResult.fail (GoError.driver 3) :: [ScanResult.ok rowMixed], none⟩) 0 scenarioA
      (GoError.driver 3) (by decide) rfl (by decide)).1 [ScanResult.ok rowMixed] none rfl,
   (update_stops_at_failure exampleNames Background
      (instanceOf ⟨scenarioA.map ScanResult.ok, some (GoError.driver 3)⟩) 0 scenarioA
      (GoError.driver 3) (by decide) rfl (by decide)).2 rfl⟩

/-- C8: when the query call returned a cursor, on the timeout path and on every path
through the loop (success, scan failure, trailing cursor error) `Close` is called exactly
once before `Update` is left; when the query call returned no cursor, on the timeout
path and on the query-error path `Close` is never called. -/
theorem close_once (names : Names) (ctx : Context) (inst : Instance) (elapsed : Nat) :
    (inst.db.rows ≠ none → (timeout_seconds * Second ≤ elapsed ∨ inst.db.err = none) →
        closes (Update names ctx inst elapsed).2 = 1) ∧
      (inst.db.rows = none → (timeout_seconds * Second ≤ elapsed ∨ inst.db.err ≠ none) →
        closes (Update names ctx inst elapsed).2 = 0) := by
  rcases Nat.lt_or_ge elapsed (timeout_seconds * Second) with hlive | hexp
  · constructor
    · intro hrows hpath
      have herr : inst.db.err = none := by
        rcases hpath with h | h
        · omega
        · exact h
      obtain ⟨cur, hcur⟩ := Option.ne_none_iff_exists'.mp hrows
      rw [update_rows names ctx inst elapsed hlive herr cur hcur]
      have hn := close_not_mem_iterate names cur.trailing cur.fetched
      simp [closes, List.count_eq_zero_of_not_mem hn]
    · intro _ hpath
      have herr : inst.db.err ≠ none := by
        rcases hpath with h | h
        · omega
        · exact h
      obtain ⟨e, he⟩ := Option.ne_none_iff_exists'.mp herr
      rw [update_error names ctx inst elapsed hlive e he]
      rfl
  · constructor
    · intro hrows _
      rw [update_expired names ctx inst elapsed hexp]
      simp [closes, hrows]
    · intro hrows _
      rw [update_expired names ctx inst elapsed hexp]
      simp [closes, hrows]

/-- C8 (witness): one `Close` for scenario A answered in time and for scenario A answered
too late; none for a failed query. -/
theorem close_once_witness :
    closes (Update exampleNames Background
        (instanceOf ⟨scenarioA.map ScanResult.ok, none⟩) 0).2 = 1 ∧
      closes (Update exampleNames Background
        (instanceOf ⟨scenarioA.map ScanResult.ok, none⟩) (3 * Second)).2 = 1 ∧
      closes (Update exampleNames Background (failingInstance (GoError.driver 7)) 0).2 = 0 :=
  ⟨(close_once exampleNames Background (instanceOf ⟨scenarioA.map ScanResult.ok, none⟩)
      0).1 (by decide) (Or.inr rfl),
   (close_once exampleNames Background (instanceOf ⟨scenarioA.map ScanResult.ok, none⟩)
      (3 * Second)).1 (by decide) (Or.inl (by decide)),
   (close_once exampleNames Background (failingInstance (GoError.driver 7)) 0).2 rfl
      (Or.inr (by decide))⟩

/-- C9 (counterexample): three label values against the three-label descriptor, one of
them the overlong form 0xC0 0x80: building the sample fails, and `Update` panics on the
row that carries it. -/
theorem update_no_panic_counterexample :
    MustNewConstMetric (statUserTablesTotalSize exampleNames) ValueType.GaugeValue 1
        [lit "db1", [0xC0, 0x80], lit "t1"] = none ∧
      (Update exampleNames Background (instanceOf ⟨[ScanResult.ok rowC080], none⟩) 0).1 =
        Outcome.panicked := by
  decide

/-- C9 (amended): for every instance whose query call returned a cursor or an error, or
whose sub-context has expired, and whose rows have valid UTF-8 in their non-NULL label
columns (any integer or NULL in the size column), `Update` does not panic: it returns
nil or an error value.  Building a sample from three valid UTF-8 label values against
the three-label descriptor never fails. -/
theorem update_no_panic (names : Names) (ctx : Context) (inst : Instance) (elapsed : Nat)
    (hquery : inst.db.rows = none → inst.db.err = none → timeout_seconds * Second ≤ elapsed)
    (hvalid : ∀ cur, inst.db.rows = some cur →
      ∀ row, ScanResult.ok row ∈ cur.fetched → validRow row = true) :
    (∃ e, (Update names ctx inst elapsed).1 = Outcome.returned e) ∧
      ∀ (value : Int) (l1 l2 l3 : GoString),
        ValidString l1 = true → ValidString l2 = true → ValidString l3 = true →
        MustNewConstMetric (statUserTablesTotalSize names) ValueType.GaugeValue value
          [l1, l2, l3] =
          some ⟨statUserTablesTotalSize names, ValueType.GaugeValue, value, [l1, l2, l3]⟩ := by
  constructor
  · rcases Nat.lt_or_ge elapsed (timeout_seconds * Second) with hlive | hexp
    · cases herr : inst.db.err with
      | some e => exact ⟨some e, by rw [update_error names ctx inst elapsed hlive e herr]⟩
      | none =>
        cases hrows : inst.db.rows with
        | none => have := hquery hrows herr; omega
        | some cur =>
          obtain ⟨e, he⟩ := iterate_returns names cur.trailing cur.fetched (hvalid cur hrows)
          exact ⟨e, by rw [update_rows names ctx inst elapsed hlive herr cur hrows]; exact he⟩
    · exact ⟨_, by rw [update_expired names ctx inst elapsed hexp]⟩
  · intro value l1 l2 l3 h1 h2 h3
    simp [MustNewConstMetric, NewConstMetric, statUserTablesTotalSize, h1, h2, h3]

/-- C9 (witness): scenario A followed by a row that fails to scan returns an error. -/
theorem update_no_panic_witness :
    ∃ e, (Update exampleNames Background
      (instanceOf ⟨scenarioA.map ScanResult.ok ++ [ScanResult.fail (GoError.driver 3)],
        none⟩) 0).1 = Outcome.returned e :=
  (update_no_panic exampleNames Background
    (instanceOf ⟨scenarioA.map ScanResult.ok ++ [ScanResult.fail (GoError.driver 3)], none⟩)
    0 (by decide) (by
      intro cur hcur row hrow
      cases Option.some.inj hcur
      simp only [scenarioA, List.map_cons, List.map_nil, List.cons_append, List.nil_append,
        List.mem_cons, ScanResult.ok.injEq, List.mem_singleton, reduceCtorEq, or_false,
        List.not_mem_nil] at hrow
      rcases hrow with h | h <;> subst h <;> decide)).1

/-- C10: the result and the trace of `Update` are the same for any two caller contexts,
live, cancelled or past their deadline, given the same database answer and the same time
on the sub-context; whatever the caller context, the first call is the query. -/
theorem update_ignores_caller_context (names : Names) (ctx1 ctx2 : Context)
    (inst : Instance) (elapsed : Nat) :
    Update names ctx1 inst elapsed = Update names ctx2 inst elapsed ∧
      (Update names ⟨some GoError.Canceled⟩ inst elapsed).2.head? =
        some Event.QueryContext := by
  refine ⟨rfl, ?_⟩
  rcases Nat.lt_or_ge elapsed (timeout_seconds * Second) with hlive | hexp
  · cases herr : inst.db.err with
    | some e => rw [update_error names _ inst elapsed hlive e herr]; rfl
    | none =>
      cases hrows : inst.db.rows with
      | none => rw [update_nil names _ inst elapsed hlive herr hrows]; rfl
      | some cur => rw [update_rows names _ inst elapsed hlive herr cur hrows]; rfl
  · rw [update_expired names _ inst elapsed hexp]; rfl

end Collector
